import Mathlib

/-!
Shallow embedding of the InvoiceSync customer data store.

The data model follows `shared/schema.ts`; the operations follow the
in-memory implementation `MemStorage` in `server/storage.ts` (the
`MemStorage` variant).  A JavaScript `Map` keyed by the record id is
modelled as a `List` of records in insertion order: `Map.get` is
`find?` on the id, `Map.set` replaces in place when the key is present
and appends otherwise, `Map.delete` filters the key out and reports
whether it was present, and `Array.from(map.values())` is the list
itself.  Nullable columns (`responsible`, `notes`, `isPrimary`) are
`Option`-valued; a partial update object carries one `Option` layer per
field to distinguish an absent key from a present value.
-/

set_option maxHeartbeats 1000000

namespace InvoiceSync

/-- `users` table row (`shared/schema.ts`). -/
structure User where
  id : Nat
  username : String
  password : String
deriving Repr, DecidableEq

/-- `customers` table row (`shared/schema.ts`): `responsible` is nullable. -/
structure Customer where
  id : Nat
  name : String
  responsible : Option String
deriving Repr, DecidableEq

/-- `phone_numbers` table row (`shared/schema.ts`): `isPrimary` is a nullable
boolean with default `false`, so a stored value is `none`, `some false` or
`some true`; the JavaScript truthiness test accepts only `some true`. -/
structure PhoneNumber where
  id : Nat
  customerId : Nat
  number : String
  isPrimary : Option Bool
deriving Repr, DecidableEq

/-- `services` table row (`shared/schema.ts`): `notes` is nullable. -/
structure Service where
  id : Nat
  customerId : Nat
  name : String
  code : String
  notes : Option String
deriving Repr, DecidableEq

/-- `InsertUser` (`insertUserSchema`). -/
structure InsertUser where
  username : String
  password : String
deriving Repr, DecidableEq

/-- `InsertCustomer` (`insertCustomerSchema`): `responsible` may be absent or
null, both of which store as `none`. -/
structure InsertCustomer where
  name : String
  responsible : Option String
deriving Repr, DecidableEq

/-- `InsertPhoneNumber` (`insertPhoneNumberSchema`): `isPrimary` is optional;
`none` models an absent or undefined field. -/
structure InsertPhoneNumber where
  customerId : Nat
  number : String
  isPrimary : Option Bool
deriving Repr, DecidableEq

/-- `InsertService` (`insertServiceSchema`). -/
structure InsertService where
  customerId : Nat
  name : String
  code : String
  notes : Option String
deriving Repr, DecidableEq

/-- `Partial<InsertCustomer>`: each field is absent (`none`) or present. -/
structure CustomerUpdate where
  name : Option String := none
  responsible : Option (Option String) := none
deriving Repr, DecidableEq

/-- `Partial<InsertPhoneNumber>`: each field is absent (`none`) or present;
note that `customerId` is part of the insert schema and therefore may appear
in a partial update. -/
structure PhoneNumberUpdate where
  customerId : Option Nat := none
  number : Option String := none
  isPrimary : Option (Option Bool) := none
deriving Repr, DecidableEq

/-- `Partial<InsertService>`. -/
structure ServiceUpdate where
  customerId : Option Nat := none
  name : Option String := none
  code : Option String := none
  notes : Option (Option String) := none
deriving Repr, DecidableEq

section MapModel

variable {α : Type}

/-- JavaScript `Map.get k` on a map keyed by `key`. -/
def mapGet (key : α → Nat) (l : List α) (i : Nat) : Option α :=
  l.find? (fun x => key x == i)

/-- JavaScript `Map.set (key v) v`: replace in place when the key is present
(preserving insertion order), append otherwise.  Every `set` call in the
source uses the record's own id as the key. -/
def mapSet (key : α → Nat) (l : List α) (v : α) : List α :=
  if l.any (fun x => key x == key v) then
    l.map (fun x => if key x == key v then v else x)
  else
    l ++ [v]

/-- JavaScript `Map.delete i`: reports whether the key was present and removes
the entry. -/
def mapDelete (key : α → Nat) (l : List α) (i : Nat) : Bool × List α :=
  (l.any (fun x => key x == i), l.filter (fun x => key x != i))

end MapModel

/-- Characters removed by the `replace(\x7b...\x7d)` calls: the ECMAScript
regular-expression whitespace class `\s`, i.e. tab, line feed, vertical tab,
form feed, carriage return, space, no-break space, the Unicode space
separators U+1680, U+2000 through U+200A, U+202F, U+205F and U+3000, the line
and paragraph separators U+2028 and U+2029, and the byte-order mark U+FEFF. -/
def isJsSpace (c : Char) : Bool :=
  c == ' ' || c == '\t' || c == '\n' || c == '\r' || c == '\x0b' || c == '\x0c' ||
    c == '\u00A0' || c == '\u1680' ||
    c == '\u2000' || c == '\u2001' || c == '\u2002' || c == '\u2003' ||
    c == '\u2004' || c == '\u2005' || c == '\u2006' || c == '\u2007' ||
    c == '\u2008' || c == '\u2009' || c == '\u200A' ||
    c == '\u2028' || c == '\u2029' || c == '\u202F' || c == '\u205F' ||
    c == '\u3000' || c == '\uFEFF'

/-- `str.replace(/\s+/g, "")`: remove every whitespace character. -/
def stripSpaces (str : String) : String :=
  String.mk (str.data.filter (fun c => !isJsSpace c))

/-- The state of the `MemStorage` class: the four maps and the four id
counters. -/
structure MemStorage where
  users : List User
  customers : List Customer
  phoneNumbers : List PhoneNumber
  services : List Service
  userCurrentId : Nat
  customerCurrentId : Nat
  phoneNumberCurrentId : Nat
  serviceCurrentId : Nat
deriving Repr, DecidableEq

namespace MemStorage

/-- The constructor together with `initializeTestData`. -/
def init : MemStorage :=
  { users := []
    customers := [{ id := 1, name := "Ahmed Mohammed", responsible := some "Mohammed Ahmed" }]
    phoneNumbers :=
      [{ id := 1, customerId := 1, number := "+966 54 123 4567", isPrimary := some true },
       { id := 2, customerId := 1, number := "+966 50 765 4321", isPrimary := some false }]
    services :=
      [{ id := 1, customerId := 1, name := "Electricity", code := "ELEC-1001-A",
         notes := some "Main building" },
       { id := 2, customerId := 1, name := "Water", code := "WATER-455-B",
         notes := some "Monthly service" },
       { id := 3, customerId := 1, name := "Internet", code := "NET-789-C",
         notes := some "Fiber optic" }]
    userCurrentId := 1
    customerCurrentId := 2
    phoneNumberCurrentId := 3
    serviceCurrentId := 4 }

/-- `createUser`. -/
def createUser (s : MemStorage) (insertUser : InsertUser) : User × MemStorage :=
  let id := s.userCurrentId
  let user : User := { id := id, username := insertUser.username, password := insertUser.password }
  (user, { s with users := mapSet User.id s.users user, userCurrentId := id + 1 })

/-- `getCustomers`. -/
def getCustomers (s : MemStorage) : List Customer :=
  s.customers

/-- `getCustomer`. -/
def getCustomer (s : MemStorage) (id : Nat) : Option Customer :=
  mapGet Customer.id s.customers id

/-- `getCustomerByPhone`: find the first phone whose stored number equals the
query after whitespace stripping, then look up its owner. -/
def getCustomerByPhone (s : MemStorage) (phoneNumber : String) : Option Customer :=
  match s.phoneNumbers.find?
      (fun phone => stripSpaces phone.number == stripSpaces phoneNumber) with
  | none => none
  | some phone => mapGet Customer.id s.customers phone.customerId

/-- `createCustomer`. -/
def createCustomer (s : MemStorage) (insertCustomer : InsertCustomer) : Customer × MemStorage :=
  let id := s.customerCurrentId
  let customer : Customer :=
    { id := id, name := insertCustomer.name, responsible := insertCustomer.responsible }
  (customer,
    { s with customers := mapSet Customer.id s.customers customer, customerCurrentId := id + 1 })

/-- The spread `\x7b...customer, ...customerUpdate\x7d`. -/
def applyCustomerUpdate (customer : Customer) (u : CustomerUpdate) : Customer :=
  { customer with
    name := u.name.getD customer.name
    responsible := u.responsible.getD customer.responsible }

/-- `updateCustomer`. -/
def updateCustomer (s : MemStorage) (id : Nat) (customerUpdate : CustomerUpdate) :
    Option Customer × MemStorage :=
  match mapGet Customer.id s.customers id with
  | none => (none, s)
  | some customer =>
    let updatedCustomer := applyCustomerUpdate customer customerUpdate
    (some updatedCustomer,
      { s with customers := mapSet Customer.id s.customers updatedCustomer })

/-- `deleteCustomer`: collect the dependent phone and service ids, delete each
of them, then delete the customer itself and report whether it existed. -/
def deleteCustomer (s : MemStorage) (id : Nat) : Bool × MemStorage :=
  let phoneIdsToDelete :=
    (s.phoneNumbers.filter (fun phone => phone.customerId == id)).map PhoneNumber.id
  let phones := s.phoneNumbers.filter (fun phone => !phoneIdsToDelete.contains phone.id)
  let serviceIdsToDelete :=
    (s.services.filter (fun service => service.customerId == id)).map Service.id
  let svcs := s.services.filter (fun service => !serviceIdsToDelete.contains service.id)
  let deleted := mapDelete Customer.id s.customers id
  (deleted.1, { s with customers := deleted.2, phoneNumbers := phones, services := svcs })

/-- `getPhoneNumbers`. -/
def getPhoneNumbers (s : MemStorage) (customerId : Nat) : List PhoneNumber :=
  s.phoneNumbers.filter (fun phone => phone.customerId == customerId)

/-- `createPhoneNumber`: when the inserted record is primary, first demote
every primary phone of the same customer, then insert under a fresh id. -/
def createPhoneNumber (s : MemStorage) (insertPhoneNumber : InsertPhoneNumber) :
    PhoneNumber × MemStorage :=
  let phones :=
    if insertPhoneNumber.isPrimary == some true then
      s.phoneNumbers.map (fun phone =>
        if phone.customerId == insertPhoneNumber.customerId && phone.isPrimary == some true then
          { phone with isPrimary := some false }
        else phone)
    else
      s.phoneNumbers
  let id := s.phoneNumberCurrentId
  let phoneNumber : PhoneNumber :=
    { id := id, customerId := insertPhoneNumber.customerId,
      number := insertPhoneNumber.number, isPrimary := insertPhoneNumber.isPrimary }
  (phoneNumber,
    { s with phoneNumbers := mapSet PhoneNumber.id phones phoneNumber,
             phoneNumberCurrentId := id + 1 })

/-- The spread `\x7b...phoneNumber, ...phoneNumberUpdate\x7d`. -/
def applyPhoneNumberUpdate (phone : PhoneNumber) (u : PhoneNumberUpdate) : PhoneNumber :=
  { phone with
    customerId := u.customerId.getD phone.customerId
    number := u.number.getD phone.number
    isPrimary := u.isPrimary.getD phone.isPrimary }

/-- `updatePhoneNumber`: when the update sets `isPrimary` to `true`, demote
every other primary phone of the same customer, then merge the update into
the record. -/
def updatePhoneNumber (s : MemStorage) (id : Nat) (phoneNumberUpdate : PhoneNumberUpdate) :
    Option PhoneNumber × MemStorage :=
  match mapGet PhoneNumber.id s.phoneNumbers id with
  | none => (none, s)
  | some phoneNumber =>
    let phones :=
      if phoneNumberUpdate.isPrimary == some (some true) then
        s.phoneNumbers.map (fun phone =>
          if phone.customerId == phoneNumber.customerId && phone.isPrimary == some true
              && phone.id != id then
            { phone with isPrimary := some false }
          else phone)
      else
        s.phoneNumbers
    let updatedPhoneNumber := applyPhoneNumberUpdate phoneNumber phoneNumberUpdate
    (some updatedPhoneNumber,
      { s with phoneNumbers := mapSet PhoneNumber.id phones updatedPhoneNumber })

/-- `deletePhoneNumber`: when the deleted record is primary, promote the first
other phone of the same customer (if any), then delete the record. -/
def deletePhoneNumber (s : MemStorage) (id : Nat) : Bool × MemStorage :=
  match mapGet PhoneNumber.id s.phoneNumbers id with
  | none => (false, s)
  | some phoneNumber =>
    let phones :=
      if phoneNumber.isPrimary == some true then
        let otherPhones := s.phoneNumbers.filter
          (fun phone => phone.customerId == phoneNumber.customerId && phone.id != id)
        match otherPhones with
        | [] => s.phoneNumbers
        | newPrimaryPhone :: _ =>
          mapSet PhoneNumber.id s.phoneNumbers { newPrimaryPhone with isPrimary := some true }
      else
        s.phoneNumbers
    let deleted := mapDelete PhoneNumber.id phones id
    (deleted.1, { s with phoneNumbers := deleted.2 })

/-- `getServices`. -/
def getServices (s : MemStorage) (customerId : Nat) : List Service :=
  s.services.filter (fun service => service.customerId == customerId)

/-- `createService`. -/
def createService (s : MemStorage) (insertService : InsertService) : Service × MemStorage :=
  let id := s.serviceCurrentId
  let service : Service :=
    { id := id, customerId := insertService.customerId, name := insertService.name,
      code := insertService.code, notes := insertService.notes }
  (service,
    { s with services := mapSet Service.id s.services service, serviceCurrentId := id + 1 })

/-- The spread `\x7b...service, ...serviceUpdate\x7d`. -/
def applyServiceUpdate (service : Service) (u : ServiceUpdate) : Service :=
  { service with
    customerId := u.customerId.getD service.customerId
    name := u.name.getD service.name
    code := u.code.getD service.code
    notes := u.notes.getD service.notes }

/-- `updateService`. -/
def updateService (s : MemStorage) (id : Nat) (serviceUpdate : ServiceUpdate) :
    Option Service × MemStorage :=
  match mapGet Service.id s.services id with
  | none => (none, s)
  | some service =>
    let updatedService := applyServiceUpdate service serviceUpdate
    (some updatedService, { s with services := mapSet Service.id s.services updatedService })

/-- `deleteService`. -/
def deleteService (s : MemStorage) (id : Nat) : Bool × MemStorage :=
  let deleted := mapDelete Service.id s.services id
  (deleted.1, { s with services := deleted.2 })

end MemStorage

/-- A mutating call to the store, for reasoning about arbitrary operation
sequences. -/
inductive StoreOp where
  | createUser (u : InsertUser)
  | createCustomer (c : InsertCustomer)
  | updateCustomer (id : Nat) (u : CustomerUpdate)
  | deleteCustomer (id : Nat)
  | createPhoneNumber (p : InsertPhoneNumber)
  | updatePhoneNumber (id : Nat) (u : PhoneNumberUpdate)
  | deletePhoneNumber (id : Nat)
  | createService (v : InsertService)
  | updateService (id : Nat) (u : ServiceUpdate)
  | deleteService (id : Nat)
deriving Repr, DecidableEq

/-- Apply one operation to the store, discarding the returned value. -/
def applyOp (s : MemStorage) : StoreOp → MemStorage
  | .createUser u => (s.createUser u).2
  | .createCustomer c => (s.createCustomer c).2
  | .updateCustomer id u => (s.updateCustomer id u).2
  | .deleteCustomer id => (s.deleteCustomer id).2
  | .createPhoneNumber p => (s.createPhoneNumber p).2
  | .updatePhoneNumber id u => (s.updatePhoneNumber id u).2
  | .deletePhoneNumber id => (s.deletePhoneNumber id).2
  | .createService v => (s.createService v).2
  | .updateService id u => (s.updateService id u).2
  | .deleteService id => (s.deleteService id).2

/-- Apply a sequence of operations from left to right. -/
def applyOps (s : MemStorage) (ops : List StoreOp) : MemStorage :=
  ops.foldl applyOp s

/-- Whether an operation is one of the three phone-number mutators. -/
def StoreOp.isPhoneOp : StoreOp → Bool
  | .createPhoneNumber _ => true
  | .updatePhoneNumber _ _ => true
  | .deletePhoneNumber _ => true
  | _ => false

/-- Number of records flagged primary for a given customer. -/
def primaryCount (phones : List PhoneNumber) (customerId : Nat) : Nat :=
  (phones.filter
    (fun p => p.customerId == customerId && p.isPrimary == some true)).length

/-- Executable form of the primary-phone invariant. -/
def primaryCheck (phones : List PhoneNumber) : Bool :=
  phones.all (fun p => decide (primaryCount phones p.customerId ≤ 1))

/-- The primary-phone invariant: at most one primary phone per customer. -/
def PrimaryInvariant (s : MemStorage) : Prop :=
  ∀ customerId, primaryCount s.phoneNumbers customerId ≤ 1

/-- Phone ids are pairwise distinct (a structural property of the backing
JavaScript `Map`). -/
def PhoneIdsNodup (s : MemStorage) : Prop :=
  (s.phoneNumbers.map PhoneNumber.id).Nodup

/-- Every stored phone id is below the phone id counter (true in every state
the constructor and the operations can produce). -/
def PhoneIdsBounded (s : MemStorage) : Prop :=
  ∀ p ∈ s.phoneNumbers, p.id < s.phoneNumberCurrentId

/-- Well-formedness of the phone map. -/
def PhonesWF (s : MemStorage) : Prop :=
  PhoneIdsNodup s ∧ PhoneIdsBounded s

instance (s : MemStorage) : Decidable (PhoneIdsNodup s) := by
  unfold PhoneIdsNodup; infer_instance

instance (s : MemStorage) : Decidable (PhoneIdsBounded s) := by
  unfold PhoneIdsBounded; infer_instance

instance (s : MemStorage) : Decidable (PhonesWF s) := by
  unfold PhonesWF; infer_instance

section MapLemmas

variable {α : Type} {key : α → Nat}

theorem mem_mapSet_self (key : α → Nat) (l : List α) (v : α) : v ∈ mapSet key l v := by
  unfold mapSet
  split
  · rename_i h
    rw [List.any_eq_true] at h
    obtain ⟨x, hx, hk⟩ := h
    exact List.mem_map.mpr ⟨x, hx, by simp [hk]⟩
  · exact List.mem_append_right _ (List.mem_singleton.mpr rfl)

theorem mapSet_of_forall_ne {l : List α} {v : α} (h : ∀ x ∈ l, key x ≠ key v) :
    mapSet key l v = l ++ [v] := by
  unfold mapSet
  have hany : l.any (fun x => key x == key v) = false := by
    rw [List.any_eq_false]
    intro x hx
    simp [h x hx]
  simp [hany]

theorem mapSet_of_mem {l : List α} {v : α} (h : ∃ x ∈ l, key x = key v) :
    mapSet key l v = l.map (fun x => if key x == key v then v else x) := by
  unfold mapSet
  obtain ⟨x, hx, hk⟩ := h
  have hany : l.any (fun x => key x == key v) = true :=
    List.any_eq_true.mpr ⟨x, hx, by simp [hk]⟩
  simp [hany]

theorem map_key_of_key_eq {l : List α} {f : α → α} (hf : ∀ x ∈ l, key (f x) = key x) :
    (l.map f).map key = l.map key := by
  rw [List.map_map]
  exact List.map_congr_left fun a ha => hf a ha

theorem nodup_mapSet {l : List α} {v : α} (h : (l.map key).Nodup) :
    ((mapSet key l v).map key).Nodup := by
  unfold mapSet
  split
  · rename_i hany
    have heq : (l.map (fun x => if key x == key v then v else x)).map key = l.map key := by
      refine map_key_of_key_eq ?_
      intro a _
      by_cases hk : (key a == key v) = true
      · simp only [hk, if_true]
        exact (beq_iff_eq.mp hk).symm
      · simp [hk]
    rw [heq]
    exact h
  · rename_i hany
    rw [Bool.not_eq_true, List.any_eq_false] at hany
    rw [List.map_append, List.nodup_append]
    refine ⟨h, List.nodup_singleton _, ?_⟩
    intro a ha hb
    rw [List.map_singleton, List.mem_singleton] at hb
    subst hb
    obtain ⟨x, hx, hk⟩ := List.mem_map.mp ha
    exact absurd (by simp [hk]) (hany x hx)

theorem two_le_length_of_mem {β : Type} {l : List β} {a b : β}
    (ha : a ∈ l) (hb : b ∈ l) (hne : a ≠ b) : 2 ≤ l.length := by
  induction l with
  | nil => cases ha
  | cons x xs ih =>
    rcases List.mem_cons.mp ha with rfl | ha'
    · rcases List.mem_cons.mp hb with rfl | hb'
      · exact absurd rfl hne
      · have := List.length_pos_of_mem hb'
        simp only [List.length_cons]
        omega
    · rcases List.mem_cons.mp hb with rfl | hb'
      · have := List.length_pos_of_mem ha'
        simp only [List.length_cons]
        omega
      · have := ih ha' hb'
        simp only [List.length_cons]
        omega

theorem filter_key_of_nodup {l : List α} (h : (l.map key).Nodup) {a : α} (ha : a ∈ l) :
    l.filter (fun x => key x == key a) = [a] := by
  induction l with
  | nil => cases ha
  | cons x xs ih =>
    rw [List.map_cons, List.nodup_cons] at h
    obtain ⟨hx, hxs⟩ := h
    rcases List.mem_cons.mp ha with heq | ha'
    · rw [heq, List.filter_cons]
      simp only [beq_self_eq_true, if_true]
      have hnil : xs.filter (fun b => key b == key x) = [] := by
        rw [List.filter_eq_nil_iff]
        intro b hb hbeq
        exact hx (List.mem_map.mpr ⟨b, hb, beq_iff_eq.mp hbeq⟩)
      rw [hnil]
    · rw [List.filter_cons]
      have hxf : (key x == key a) = false := by
        rw [beq_eq_false_iff_ne]
        intro hEq
        exact hx (hEq ▸ List.mem_map.mpr ⟨a, ha', rfl⟩)
      simp only [hxf, Bool.false_eq_true, if_false]
      exact ih hxs ha'

end MapLemmas

/-- The executable invariant check implies the invariant for every customer
id, including ids with no phone at all. -/
theorem primaryCount_le_one_of_check {phones : List PhoneNumber}
    (h : primaryCheck phones = true) :
    ∀ customerId, primaryCount phones customerId ≤ 1 := by
  intro cid
  by_cases hex : ∃ p ∈ phones, (p.customerId == cid && p.isPrimary == some true) = true
  · obtain ⟨p, hp, hpred⟩ := hex
    have hall := (List.all_eq_true.mp h) p hp
    rw [decide_eq_true_eq] at hall
    have hcid : p.customerId = cid :=
      beq_iff_eq.mp ((Bool.and_eq_true _ _ ▸ hpred).1)
    rwa [hcid] at hall
  · have hnil : phones.filter (fun p => p.customerId == cid && p.isPrimary == some true) = [] := by
      rw [List.filter_eq_nil_iff]
      intro p hp hpred
      exact hex ⟨p, hp, hpred⟩
    unfold primaryCount
    rw [hnil]
    simp

/-- C2: `deleteCustomer` reports whether the customer existed and cascades,
so the dependent phone and service queries come back empty. -/
theorem deleteCustomer_cascades (s : MemStorage) (id : Nat) :
    (s.deleteCustomer id).1 = s.customers.any (fun c => c.id == id) ∧
    (s.deleteCustomer id).2.getPhoneNumbers id = [] ∧
    (s.deleteCustomer id).2.getServices id = [] := by
  refine ⟨rfl, ?_, ?_⟩
  · simp only [MemStorage.deleteCustomer, MemStorage.getPhoneNumbers]
    rw [List.filter_eq_nil_iff]
    intro p hp hcid
    rw [List.mem_filter] at hp
    obtain ⟨hpl, hpc⟩ := hp
    have hmem : p.id ∈ (s.phoneNumbers.filter
        (fun phone => phone.customerId == id)).map PhoneNumber.id :=
      List.mem_map.mpr ⟨p, List.mem_filter.mpr ⟨hpl, hcid⟩, rfl⟩
    simp [hmem] at hpc
  · simp only [MemStorage.deleteCustomer, MemStorage.getServices]
    rw [List.filter_eq_nil_iff]
    intro v hv hcid
    rw [List.mem_filter] at hv
    obtain ⟨hvl, hvc⟩ := hv
    have hmem : v.id ∈ (s.services.filter
        (fun service => service.customerId == id)).map Service.id :=
      List.mem_map.mpr ⟨v, List.mem_filter.mpr ⟨hvl, hcid⟩, rfl⟩
    simp [hmem] at hvc

/-- C9: `createPhoneNumber` and `createService` insert unconditionally; with a
customer id that matches no customer the store ends up holding an orphan
record. -/
theorem create_allows_orphans (s : MemStorage)
    (ip : InsertPhoneNumber) (iv : InsertService)
    (hp : ∀ c ∈ s.customers, c.id ≠ ip.customerId)
    (hv : ∀ c ∈ s.customers, c.id ≠ iv.customerId) :
    (s.createPhoneNumber ip).1 ∈ (s.createPhoneNumber ip).2.phoneNumbers ∧
    (s.createPhoneNumber ip).1.customerId = ip.customerId ∧
    (∀ c ∈ (s.createPhoneNumber ip).2.customers, c.id ≠ ip.customerId) ∧
    (s.createService iv).1 ∈ (s.createService iv).2.services ∧
    (s.createService iv).1.customerId = iv.customerId ∧
    (∀ c ∈ (s.createService iv).2.customers, c.id ≠ iv.customerId) := by
  refine ⟨?_, rfl, hp, ?_, rfl, hv⟩
  · exact mem_mapSet_self _ _ _
  · exact mem_mapSet_self _ _ _

/-- C10: `deleteCustomer` on a missing id reports `false` yet still removes
every phone and service tied to that id, so the state can change. -/
theorem deleteCustomer_missing_not_noop (s : MemStorage) (id : Nat)
    (h : ∀ c ∈ s.customers, c.id ≠ id) :
    (s.deleteCustomer id).1 = false ∧
    (∀ p ∈ (s.deleteCustomer id).2.phoneNumbers, p.customerId ≠ id) ∧
    (∀ v ∈ (s.deleteCustomer id).2.services, v.customerId ≠ id) ∧
    ((∃ p ∈ s.phoneNumbers, p.customerId = id) →
      (s.deleteCustomer id).2.phoneNumbers ≠ s.phoneNumbers) := by
  have hphones : ∀ p ∈ (s.deleteCustomer id).2.phoneNumbers, p.customerId ≠ id := by
    simp only [MemStorage.deleteCustomer]
    intro p hp hcid
    rw [List.mem_filter] at hp
    obtain ⟨hpl, hpc⟩ := hp
    have hmem : p.id ∈ (s.phoneNumbers.filter
        (fun phone => phone.customerId == id)).map PhoneNumber.id :=
      List.mem_map.mpr ⟨p, List.mem_filter.mpr ⟨hpl, by simp [hcid]⟩, rfl⟩
    simp [hmem] at hpc
  refine ⟨?_, hphones, ?_, ?_⟩
  · show (mapDelete Customer.id s.customers id).1 = false
    unfold mapDelete
    rw [List.any_eq_false]
    intro c hc
    simp [h c hc]
  · simp only [MemStorage.deleteCustomer]
    intro v hv hcid
    rw [List.mem_filter] at hv
    obtain ⟨hvl, hvc⟩ := hv
    have hmem : v.id ∈ (s.services.filter
        (fun service => service.customerId == id)).map Service.id :=
      List.mem_map.mpr ⟨v, List.mem_filter.mpr ⟨hvl, by simp [hcid]⟩, rfl⟩
    simp [hmem] at hvc
  · rintro ⟨p, hp, hcid⟩ hEq
    exact hphones p (hEq ▸ hp) hcid

/-- Witness for `create_allows_orphans`: customer id 99 does not exist in the
initial store, yet the phone insert succeeds and leaves an orphan. -/
theorem create_allows_orphans_witness :
    (MemStorage.init.createPhoneNumber ⟨99, "123", some false⟩).1 ∈
      (MemStorage.init.createPhoneNumber ⟨99, "123", some false⟩).2.phoneNumbers ∧
    (∀ c ∈ (MemStorage.init.createPhoneNumber ⟨99, "123", some false⟩).2.customers,
      c.id ≠ 99) :=
  ⟨(create_allows_orphans MemStorage.init ⟨99, "123", some false⟩ ⟨99, "Net", "C-1", none⟩
      (by decide) (by decide)).1,
   (create_allows_orphans MemStorage.init ⟨99, "123", some false⟩ ⟨99, "Net", "C-1", none⟩
      (by decide) (by decide)).2.2.1⟩

/-- Witness for `deleteCustomer_missing_not_noop`: deleting absent customer 99
after an orphan phone was inserted for it reports `false` and still removes
the orphan. -/
theorem deleteCustomer_missing_not_noop_witness :
    ((MemStorage.init.createPhoneNumber ⟨99, "123", some false⟩).2.deleteCustomer 99).1 = false ∧
    ((MemStorage.init.createPhoneNumber ⟨99, "123", some false⟩).2.deleteCustomer 99).2.phoneNumbers ≠
      (MemStorage.init.createPhoneNumber ⟨99, "123", some false⟩).2.phoneNumbers :=
  ⟨(deleteCustomer_missing_not_noop _ 99 (by decide)).1,
   (deleteCustomer_missing_not_noop _ 99 (by decide)).2.2.2 (by decide)⟩

/-- Scenario for the primary-phone invariant: a second customer with its own
primary phone, built by the store operations themselves. -/
def primaryClashState : MemStorage :=
  applyOps MemStorage.init
    [.createCustomer { name := "Sara", responsible := none },
     .createPhoneNumber { customerId := 2, number := "0500000000", isPrimary := some true }]

/-- C1: starting from a state satisfying the invariant, the single
phone-number call `updatePhoneNumber 1` carrying customer id 2 moves customer 1's
primary phone onto customer 2, which already has one, leaving customer 2 with
two primary phones. -/
theorem primary_invariant_violation :
    primaryCheck primaryClashState.phoneNumbers = true ∧
    ([StoreOp.updatePhoneNumber 1 { customerId := some 2 }].all StoreOp.isPhoneOp) = true ∧
    primaryCount
      (applyOps primaryClashState
        [.updatePhoneNumber 1 { customerId := some 2 }]).phoneNumbers 2 = 2 := by
  decide

/-- C5 (counterexample): `updatePhoneNumber` with a `customerId` field in the
partial update moves phone 1 from customer 1 to customer 2, so `customerId`
is not immutable. -/
theorem updatePhoneNumber_changes_customerId :
    mapGet PhoneNumber.id MemStorage.init.phoneNumbers 1 =
      some { id := 1, customerId := 1, number := "+966 54 123 4567", isPrimary := some true } ∧
    mapGet PhoneNumber.id
        (MemStorage.init.updatePhoneNumber 1 { customerId := some 2 }).2.phoneNumbers 1 =
      some { id := 1, customerId := 2, number := "+966 54 123 4567", isPrimary := some true } := by
  decide

/-- C6: `getCustomerByPhone` depends only on the whitespace-stripped query,
and a query that matches a stored number (all matches belonging to the same
customer) returns that customer. -/
theorem getCustomerByPhone_strip (s : MemStorage) :
    (∀ q₁ q₂ : String, stripSpaces q₁ = stripSpaces q₂ →
      s.getCustomerByPhone q₁ = s.getCustomerByPhone q₂) ∧
    (∀ (q : String) (p : PhoneNumber) (c : Customer),
      p ∈ s.phoneNumbers → stripSpaces p.number = stripSpaces q →
      (∀ p' ∈ s.phoneNumbers, stripSpaces p'.number = stripSpaces q →
        p'.customerId = p.customerId) →
      mapGet Customer.id s.customers p.customerId = some c →
      s.getCustomerByPhone q = some c) := by
  constructor
  · intro q₁ q₂ h
    simp only [MemStorage.getCustomerByPhone, h]
  · intro q p c hp hstrip hsame hc
    have hsomeEx : ∃ x ∈ s.phoneNumbers, (stripSpaces x.number == stripSpaces q) = true :=
      ⟨p, hp, by simp [hstrip]⟩
    have hisSome := List.find?_isSome.mpr hsomeEx
    cases hfind : s.phoneNumbers.find?
        (fun phone => stripSpaces phone.number == stripSpaces q) with
    | none => rw [hfind] at hisSome; simp at hisSome
    | some p₀ =>
      have hmem := List.mem_of_find?_eq_some hfind
      have hpred := List.find?_some hfind
      have hcid : p₀.customerId = p.customerId := hsame p₀ hmem (beq_iff_eq.mp hpred)
      simp only [MemStorage.getCustomerByPhone, hfind, hcid]
      exact hc

/-- Witness for `getCustomerByPhone_strip`: the two spec queries agree and
return the seeded customer. -/
theorem getCustomerByPhone_strip_witness :
    MemStorage.init.getCustomerByPhone "+966 54 123 4567" =
      MemStorage.init.getCustomerByPhone "+966541234567" ∧
    MemStorage.init.getCustomerByPhone "+966541234567" =
      some { id := 1, name := "Ahmed Mohammed", responsible := some "Mohammed Ahmed" } :=
  ⟨(getCustomerByPhone_strip MemStorage.init).1 "+966 54 123 4567" "+966541234567" (by decide),
   (getCustomerByPhone_strip MemStorage.init).2 "+966541234567"
      { id := 1, customerId := 1, number := "+966 54 123 4567", isPrimary := some true }
      { id := 1, name := "Ahmed Mohammed", responsible := some "Mohammed Ahmed" }
      (by decide) (by decide) (by decide) (by decide)⟩

/-- C7: updating a customer's name merges only that field (id and
`responsible` stay, phones and services stay), and updating a missing id
returns not-found leaving the whole store unchanged. -/
theorem updateCustomer_frame (s : MemStorage) (id : Nat) (x : String) :
    (∀ c, mapGet Customer.id s.customers id = some c →
      (s.updateCustomer id { name := some x }).1 =
        some { id := c.id, name := x, responsible := c.responsible } ∧
      (s.updateCustomer id { name := some x }).2.customers =
        s.customers.map (fun d =>
          if d.id == c.id then { id := c.id, name := x, responsible := c.responsible } else d) ∧
      (s.updateCustomer id { name := some x }).2.phoneNumbers = s.phoneNumbers ∧
      (s.updateCustomer id { name := some x }).2.services = s.services) ∧
    (∀ u : CustomerUpdate, mapGet Customer.id s.customers id = none →
      s.updateCustomer id u = (none, s)) := by
  constructor
  · intro c hc
    have hmemc : c ∈ s.customers := List.mem_of_find?_eq_some hc
    have hupd : MemStorage.applyCustomerUpdate c { name := some x } =
        { id := c.id, name := x, responsible := c.responsible } := rfl
    have hset := @mapSet_of_mem Customer Customer.id s.customers
      (MemStorage.applyCustomerUpdate c { name := some x }) ⟨c, hmemc, rfl⟩
    rw [hupd] at hset
    refine ⟨?_, ?_, ?_, ?_⟩
    · simp only [MemStorage.updateCustomer, hc, hupd]
    · simp only [MemStorage.updateCustomer, hc, hupd]
      rw [hset]
    · simp only [MemStorage.updateCustomer, hc]
    · simp only [MemStorage.updateCustomer, hc]
  · intro u hu
    simp only [MemStorage.updateCustomer, hu]

/-- Witness for `updateCustomer_frame`: renaming customer 1 keeps
`responsible`, and updating missing id 42 is a no-op. -/
theorem updateCustomer_frame_witness :
    (MemStorage.init.updateCustomer 1 { name := some "Updated" }).1 =
      some { id := 1, name := "Updated", responsible := some "Mohammed Ahmed" } ∧
    MemStorage.init.updateCustomer 42 { name := some "Z" } = (none, MemStorage.init) :=
  ⟨((updateCustomer_frame MemStorage.init 1 "Updated").1
      { id := 1, name := "Ahmed Mohammed", responsible := some "Mohammed Ahmed" }
      (by decide)).1,
   (updateCustomer_frame MemStorage.init 42 "Z").2 { name := some "Z" } (by decide)⟩

/-- C3: creating a primary phone first demotes every existing primary phone
of that customer; afterwards the returned record is the unique primary for
that customer and every previously primary record is stored with
`isPrimary = false`. -/
theorem createPhoneNumber_primary (s : MemStorage) (ins : InsertPhoneNumber)
    (hB : PhoneIdsBounded s) (hins : ins.isPrimary = some true) :
    (s.createPhoneNumber ins).1.customerId = ins.customerId ∧
    (s.createPhoneNumber ins).1.isPrimary = some true ∧
    (s.createPhoneNumber ins).2.phoneNumbers.filter
        (fun p => p.customerId == ins.customerId && p.isPrimary == some true) =
      [(s.createPhoneNumber ins).1] ∧
    (∀ p ∈ s.phoneNumbers, p.customerId = ins.customerId → p.isPrimary = some true →
      { p with isPrimary := some false } ∈ (s.createPhoneNumber ins).2.phoneNumbers) := by
  have hcond : (ins.isPrimary == some true) = true := by simp [hins]
  have hfresh : ∀ x ∈ s.phoneNumbers.map (fun phone =>
        if phone.customerId == ins.customerId && phone.isPrimary == some true then
          { phone with isPrimary := some false }
        else phone),
      PhoneNumber.id x ≠ PhoneNumber.id
        (⟨s.phoneNumberCurrentId, ins.customerId, ins.number, ins.isPrimary⟩ : PhoneNumber) := by
    intro x hx
    obtain ⟨p, hp, hfp⟩ := List.mem_map.mp hx
    have hid : x.id = p.id := by
      rw [← hfp]
      split <;> rfl
    have hlt := hB p hp
    show x.id ≠ s.phoneNumberCurrentId
    omega
  have hset := mapSet_of_forall_ne hfresh
  refine ⟨rfl, hins, ?_, ?_⟩
  · simp only [MemStorage.createPhoneNumber, hcond, if_true]
    rw [hset, List.filter_append]
    have h1 : (s.phoneNumbers.map (fun phone =>
        if phone.customerId == ins.customerId && phone.isPrimary == some true then
          { phone with isPrimary := some false }
        else phone)).filter
          (fun p => p.customerId == ins.customerId && p.isPrimary == some true) = [] := by
      rw [List.filter_eq_nil_iff]
      intro x hx
      obtain ⟨p, hp, hfp⟩ := List.mem_map.mp hx
      rw [← hfp]
      by_cases htest : (p.customerId == ins.customerId && p.isPrimary == some true) = true
      · simp only [htest, if_true]
        intro hPx
        rw [Bool.and_eq_true] at hPx
        exact absurd hPx.2 (by decide)
      · rw [Bool.not_eq_true] at htest
        simp only [htest, Bool.false_eq_true, if_false]
        simp [htest]
    rw [h1]
    simp [List.filter_cons, hcond]
  · intro p hp hcid hprim
    simp only [MemStorage.createPhoneNumber, hcond, if_true]
    rw [hset]
    refine List.mem_append_left _ (List.mem_map.mpr ⟨p, hp, ?_⟩)
    have htest : (p.customerId == ins.customerId && p.isPrimary == some true) = true := by
      simp [hcid, hprim]
    simp only [htest, if_true]

/-- Witness for `createPhoneNumber_primary`: adding a new primary phone for
customer 1 demotes the seeded primary phone 1. -/
theorem createPhoneNumber_primary_witness :
    (MemStorage.init.createPhoneNumber ⟨1, "055", some true⟩).2.phoneNumbers.filter
        (fun p => p.customerId == 1 && p.isPrimary == some true) =
      [(MemStorage.init.createPhoneNumber ⟨1, "055", some true⟩).1] ∧
    ({ id := 1, customerId := 1, number := "+966 54 123 4567", isPrimary := some false } :
        PhoneNumber) ∈
      (MemStorage.init.createPhoneNumber ⟨1, "055", some true⟩).2.phoneNumbers :=
  ⟨(createPhoneNumber_primary MemStorage.init ⟨1, "055", some true⟩ (by decide) rfl).2.2.1,
   (createPhoneNumber_primary MemStorage.init ⟨1, "055", some true⟩ (by decide) rfl).2.2.2
      ⟨1, 1, "+966 54 123 4567", some true⟩ (by decide) rfl rfl⟩

/-- C4: deleting an existing phone returns `true`; when the deleted record
was primary and other phones of the same customer remain, the first remaining
phone in insertion order becomes the unique primary for that customer; when
no other phone remains the customer ends up with zero phones. -/
theorem deletePhoneNumber_promotes (s : MemStorage) (id : Nat) (pn : PhoneNumber)
    (hN : PhoneIdsNodup s) (hInv : PrimaryInvariant s)
    (hfind : mapGet PhoneNumber.id s.phoneNumbers id = some pn) :
    (s.deletePhoneNumber id).1 = true ∧
    (∀ q rest, pn.isPrimary = some true →
      s.phoneNumbers.filter
          (fun phone => phone.customerId == pn.customerId && phone.id != id) = q :: rest →
      (s.deletePhoneNumber id).2.phoneNumbers.filter
          (fun p => p.customerId == pn.customerId && p.isPrimary == some true) =
        [{ q with isPrimary := some true }]) ∧
    (s.phoneNumbers.filter
        (fun phone => phone.customerId == pn.customerId && phone.id != id) = [] →
      (s.deletePhoneNumber id).2.getPhoneNumbers pn.customerId = []) := by
  have hfind' : s.phoneNumbers.find? (fun x => PhoneNumber.id x == id) = some pn := hfind
  have hpnmem : pn ∈ s.phoneNumbers := List.mem_of_find?_eq_some hfind'
  have hpnpred := List.find?_some hfind'
  have hpnid : pn.id = id := beq_iff_eq.mp hpnpred
  refine ⟨?_, ?_, ?_⟩
  · -- the record exists, so the final `Map.delete` returns true
    simp only [MemStorage.deletePhoneNumber, hfind]
    by_cases hprim : (pn.isPrimary == some true) = true
    · simp only [hprim, if_true]
      cases hothers : s.phoneNumbers.filter
          (fun phone => phone.customerId == pn.customerId && phone.id != id) with
      | nil =>
        simp only [mapDelete]
        exact List.any_eq_true.mpr ⟨pn, hpnmem, by simp [hpnid]⟩
      | cons q rest =>
        have hqmem : q ∈ s.phoneNumbers :=
          (List.mem_filter.mp (hothers ▸ List.mem_cons_self q rest)).1
        simp only [mapDelete]
        rw [@mapSet_of_mem PhoneNumber PhoneNumber.id s.phoneNumbers
          { q with isPrimary := some true } ⟨q, hqmem, rfl⟩]
        refine List.any_eq_true.mpr ⟨pn, List.mem_map.mpr ⟨pn, hpnmem, ?_⟩, by simp [hpnid]⟩
        have hqid : (q.id != id) = true :=
          ((Bool.and_eq_true _ _ ▸
            (List.mem_filter.mp (hothers ▸ List.mem_cons_self q rest)).2).2)
        rw [bne_iff_ne] at hqid
        have : (pn.id == PhoneNumber.id { q with isPrimary := some true }) = false := by
          rw [beq_eq_false_iff_ne]
          show pn.id ≠ q.id
          rw [hpnid]
          exact fun h => hqid h.symm
        simp [this]
    · rw [Bool.not_eq_true] at hprim
      simp only [hprim, Bool.false_eq_true, if_false, mapDelete]
      exact List.any_eq_true.mpr ⟨pn, hpnmem, by simp [hpnid]⟩
  · -- promotion of the first remaining phone
    intro q rest hprimEq heq
    have hprim : (pn.isPrimary == some true) = true := by simp [hprimEq]
    have hqfilter := List.mem_filter.mp (heq ▸ List.mem_cons_self q rest)
    have hqmem : q ∈ s.phoneNumbers := hqfilter.1
    have hqpred := Bool.and_eq_true _ _ ▸ hqfilter.2
    have hqcid : q.customerId = pn.customerId := beq_iff_eq.mp hqpred.1
    have hqid : q.id ≠ id := bne_iff_ne.mp hqpred.2
    simp only [MemStorage.deletePhoneNumber, hfind, hprim, if_true, heq]
    rw [@mapSet_of_mem PhoneNumber PhoneNumber.id s.phoneNumbers
      { q with isPrimary := some true } ⟨q, hqmem, rfl⟩]
    simp only [mapDelete]
    rw [List.filter_filter, List.filter_map]
    have hinner : s.phoneNumbers.filter
        ((fun a => (a.customerId == pn.customerId && a.isPrimary == some true) &&
            (PhoneNumber.id a != id)) ∘
          (fun x => if (PhoneNumber.id x == PhoneNumber.id { q with isPrimary := some true })
            then { q with isPrimary := some true } else x)) =
        [q] := by
      have hcongr : ∀ x ∈ s.phoneNumbers,
          ((fun a => (a.customerId == pn.customerId && a.isPrimary == some true) &&
              (PhoneNumber.id a != id)) ∘
            (fun x => if (PhoneNumber.id x == PhoneNumber.id { q with isPrimary := some true })
              then { q with isPrimary := some true } else x)) x =
          (PhoneNumber.id x == PhoneNumber.id q) := by
        intro x hx
        simp only [Function.comp_apply]
        by_cases hxq : (PhoneNumber.id x == PhoneNumber.id q) = true
        · have hxq' : (PhoneNumber.id x ==
              PhoneNumber.id { q with isPrimary := some true }) = true := hxq
          simp only [hxq', if_true, hxq]
          show ((q.customerId == pn.customerId && (some true == some true)) &&
            (q.id != id)) = true
          simp [hqcid, hqid]
        · have hxq' : (PhoneNumber.id x ==
              PhoneNumber.id { q with isPrimary := some true }) = false := by
            rw [Bool.not_eq_true] at hxq
            exact hxq
          simp only [hxq', Bool.false_eq_true, if_false]
          -- a second primary phone for this customer would contradict the invariant
          by_contra hcontra
          rw [Bool.not_eq_false, Bool.and_eq_true, Bool.and_eq_true] at hcontra
          obtain ⟨⟨hxcid, hxprim⟩, hxid⟩ := hcontra
          have hxmem : x ∈ s.phoneNumbers.filter
              (fun p => p.customerId == pn.customerId && p.isPrimary == some true) :=
            List.mem_filter.mpr ⟨hx, by simp [hxcid, hxprim]⟩
          have hpnmem' : pn ∈ s.phoneNumbers.filter
              (fun p => p.customerId == pn.customerId && p.isPrimary == some true) :=
            List.mem_filter.mpr ⟨hpnmem, by simp [hprimEq]⟩
          have hne : x ≠ pn := by
            intro hEq
            rw [bne_iff_ne] at hxid
            exact hxid (hEq ▸ hpnid ▸ rfl)
          have h2 := two_le_length_of_mem hxmem hpnmem' hne
          have h1 := hInv pn.customerId
          unfold primaryCount at h1
          omega
      rw [List.filter_congr hcongr]
      exact filter_key_of_nodup hN hqmem
    rw [hinner]
    simp
  · -- no other phone of this customer remains
    intro hothers
    simp only [MemStorage.deletePhoneNumber, hfind]
    have hempty : (List.filter (fun phone => phone.customerId == pn.customerId)
        ((mapDelete PhoneNumber.id s.phoneNumbers id).2)) = [] := by
      simp only [mapDelete]
      rw [List.filter_filter, List.filter_eq_nil_iff]
      intro x hx hcontra
      rw [Bool.and_eq_true] at hcontra
      exact (List.filter_eq_nil_iff.mp hothers) x hx
        (by simp [hcontra.1, hcontra.2])
    by_cases hprim : (pn.isPrimary == some true) = true
    · simp only [hprim, if_true, hothers, MemStorage.getPhoneNumbers]
      exact hempty
    · rw [Bool.not_eq_true] at hprim
      simp only [hprim, Bool.false_eq_true, if_false, MemStorage.getPhoneNumbers]
      exact hempty

/-- Witness for `deletePhoneNumber_promotes`: deleting the seeded primary
phone 1 promotes phone 2; deleting the sole phone of customer 5 leaves
customer 5 with no phones. -/
theorem deletePhoneNumber_promotes_witness :
    (MemStorage.init.deletePhoneNumber 1).1 = true ∧
    (MemStorage.init.deletePhoneNumber 1).2.phoneNumbers.filter
        (fun p => p.customerId == 1 && p.isPrimary == some true) =
      [{ id := 2, customerId := 1, number := "+966 50 765 4321", isPrimary := some true }] ∧
    ((MemStorage.init.createPhoneNumber ⟨5, "055", some true⟩).2.deletePhoneNumber
        3).2.getPhoneNumbers 5 = [] :=
  ⟨(deletePhoneNumber_promotes MemStorage.init 1 ⟨1, 1, "+966 54 123 4567", some true⟩
      (by decide) (primaryCount_le_one_of_check (by decide)) (by decide)).1,
   (deletePhoneNumber_promotes MemStorage.init 1 ⟨1, 1, "+966 54 123 4567", some true⟩
      (by decide) (primaryCount_le_one_of_check (by decide)) (by decide)).2.1
      ⟨2, 1, "+966 50 765 4321", some false⟩ [] rfl (by decide),
   (deletePhoneNumber_promotes (MemStorage.init.createPhoneNumber ⟨5, "055", some true⟩).2 3
      ⟨3, 5, "055", some true⟩ (by decide) (primaryCount_le_one_of_check (by decide))
      (by decide)).2.2 (by decide)⟩

/-- Ids handed out by `createCustomer` along a run of operations (each
create assigns the current counter and increments it). -/
def createdCustomerIds (s : MemStorage) : List StoreOp → List Nat
  | [] => []
  | op :: ops =>
    match op with
    | .createCustomer _ => s.customerCurrentId :: createdCustomerIds (applyOp s op) ops
    | _ => createdCustomerIds (applyOp s op) ops

/-- Ids handed out by `createPhoneNumber` along a run of operations. -/
def createdPhoneNumberIds (s : MemStorage) : List StoreOp → List Nat
  | [] => []
  | op :: ops =>
    match op with
    | .createPhoneNumber _ => s.phoneNumberCurrentId :: createdPhoneNumberIds (applyOp s op) ops
    | _ => createdPhoneNumberIds (applyOp s op) ops

/-- Ids handed out by `createService` along a run of operations. -/
def createdServiceIds (s : MemStorage) : List StoreOp → List Nat
  | [] => []
  | op :: ops =>
    match op with
    | .createService _ => s.serviceCurrentId :: createdServiceIds (applyOp s op) ops
    | _ => createdServiceIds (applyOp s op) ops

/-- Every element is at least `c` and each element is strictly below the
next (so the list is strictly increasing and free of repeats). -/
def IdsIncreasingFrom : Nat → List Nat → Prop
  | _, [] => True
  | c, i :: rest => c ≤ i ∧ IdsIncreasingFrom (i + 1) rest

theorem idsIncreasingFrom_mono {c c' : Nat} (h : c ≤ c') :
    ∀ l, IdsIncreasingFrom c' l → IdsIncreasingFrom c l := by
  intro l
  cases l with
  | nil => intro h'; trivial
  | cons i rest => intro h'; exact ⟨le_trans h h'.1, h'.2⟩

/-- No operation ever decreases an id counter. -/
theorem applyOp_counters_mono (s : MemStorage) (op : StoreOp) :
    s.customerCurrentId ≤ (applyOp s op).customerCurrentId ∧
    s.phoneNumberCurrentId ≤ (applyOp s op).phoneNumberCurrentId ∧
    s.serviceCurrentId ≤ (applyOp s op).serviceCurrentId := by
  cases op with
  | createUser u => simp [applyOp, MemStorage.createUser]
  | createCustomer c => simp [applyOp, MemStorage.createCustomer]
  | updateCustomer id u =>
    simp only [applyOp, MemStorage.updateCustomer]
    cases hm : mapGet Customer.id s.customers id <;> simp [hm]
  | deleteCustomer id => simp [applyOp, MemStorage.deleteCustomer]
  | createPhoneNumber p => simp [applyOp, MemStorage.createPhoneNumber]
  | updatePhoneNumber id u =>
    simp only [applyOp, MemStorage.updatePhoneNumber]
    cases hm : mapGet PhoneNumber.id s.phoneNumbers id <;> simp [hm]
  | deletePhoneNumber id =>
    simp only [applyOp, MemStorage.deletePhoneNumber]
    cases hm : mapGet PhoneNumber.id s.phoneNumbers id <;> simp [hm]
  | createService v => simp [applyOp, MemStorage.createService]
  | updateService id u =>
    simp only [applyOp, MemStorage.updateService]
    cases hm : mapGet Service.id s.services id <;> simp [hm]
  | deleteService id => simp [applyOp, MemStorage.deleteService]

/-- C8: along any run of operations from any state, the ids assigned by the
three create operations start at the current counters and increase strictly,
so an id is never assigned twice and never reused after a delete. -/
theorem created_ids_strictly_increasing (s : MemStorage) (ops : List StoreOp) :
    IdsIncreasingFrom s.customerCurrentId (createdCustomerIds s ops) ∧
    IdsIncreasingFrom s.phoneNumberCurrentId (createdPhoneNumberIds s ops) ∧
    IdsIncreasingFrom s.serviceCurrentId (createdServiceIds s ops) := by
  induction ops generalizing s with
  | nil => exact ⟨trivial, trivial, trivial⟩
  | cons op ops ih =>
    obtain ⟨ihc, ihp, ihs⟩ := ih (applyOp s op)
    obtain ⟨hc, hp, hs⟩ := applyOp_counters_mono s op
    refine ⟨?_, ?_, ?_⟩
    · cases op <;> simp only [createdCustomerIds] <;>
        first
          | exact ⟨le_refl _, ihc⟩
          | exact idsIncreasingFrom_mono hc _ ihc
    · cases op <;> simp only [createdPhoneNumberIds] <;>
        first
          | exact ⟨le_refl _, ihp⟩
          | exact idsIncreasingFrom_mono hp _ ihp
    · cases op <;> simp only [createdServiceIds] <;>
        first
          | exact ⟨le_refl _, ihs⟩
          | exact idsIncreasingFrom_mono hs _ ihs

/-- Whether an operation leaves every stored phone's `customerId` untouched:
only `updatePhoneNumber` with a `customerId` field in the partial update can
rewrite it. -/
def opKeepsPhoneCustomerId : StoreOp → Bool
  | .updatePhoneNumber _ u => u.customerId.isNone
  | _ => true

theorem mem_mapSet_cases {α : Type} (key : α → Nat) (l : List α) (v : α) :
    ∀ x ∈ mapSet key l v, x ∈ l ∨ x = v := by
  intro x hx
  unfold mapSet at hx
  by_cases hany : l.any (fun y => key y == key v) = true
  · rw [if_pos hany] at hx
    obtain ⟨y, hy, hyx⟩ := List.mem_map.mp hx
    rw [← hyx]
    by_cases hk : (key y == key v) = true
    · right
      simp [hk]
    · rw [Bool.not_eq_true] at hk
      left
      simp only [hk, Bool.false_eq_true, if_false]
      exact hy
  · rw [if_neg hany] at hx
    rcases List.mem_append.mp hx with h | h
    · exact Or.inl h
    · exact Or.inr (List.mem_singleton.mp h)

theorem mapSet_ids_eq {α : Type} {key : α → Nat} {l : List α} {v : α}
    (h : ∃ x ∈ l, key x = key v) :
    (mapSet key l v).map key = l.map key := by
  rw [mapSet_of_mem h]
  refine map_key_of_key_eq ?_
  intro x _
  by_cases hk : (key x == key v) = true
  · simp only [hk, if_true]
    exact (beq_iff_eq.mp hk).symm
  · rw [Bool.not_eq_true] at hk
    simp [hk]

theorem bounded_of_ids_eq {l0 src : List PhoneNumber} {n : Nat}
    (hl0 : l0.map PhoneNumber.id = src.map PhoneNumber.id)
    (hB : ∀ p ∈ src, p.id < n) : ∀ p ∈ l0, p.id < n := by
  intro p hp
  have hmem : p.id ∈ src.map PhoneNumber.id := hl0 ▸ List.mem_map.mpr ⟨p, hp, rfl⟩
  obtain ⟨x, hx, hxid⟩ := List.mem_map.mp hmem
  exact hxid ▸ hB x hx

theorem mapSet_wf {l0 src : List PhoneNumber} {v : PhoneNumber} {n : Nat}
    (hN : (src.map PhoneNumber.id).Nodup) (hB : ∀ p ∈ src, p.id < n)
    (hl0 : l0.map PhoneNumber.id = src.map PhoneNumber.id)
    (hv : v.id < n) :
    ((mapSet PhoneNumber.id l0 v).map PhoneNumber.id).Nodup ∧
    ∀ p ∈ mapSet PhoneNumber.id l0 v, p.id < n := by
  refine ⟨nodup_mapSet (by rw [hl0]; exact hN), ?_⟩
  intro p hp
  rcases mem_mapSet_cases _ _ _ p hp with h | rfl
  · exact bounded_of_ids_eq hl0 hB p h
  · exact hv

theorem demote_trace {l : List PhoneNumber} {cond : PhoneNumber → Bool} :
    ∀ y ∈ l.map (fun phone =>
        if cond phone then { phone with isPrimary := some false } else phone),
      ∃ x ∈ l, y.id = x.id ∧ y.customerId = x.customerId := by
  intro y hy
  obtain ⟨x, hx, hxy⟩ := List.mem_map.mp hy
  refine ⟨x, hx, ?_⟩
  rw [← hxy]
  constructor <;> (split <;> rfl)

theorem demote_ids_eq {l : List PhoneNumber} {cond : PhoneNumber → Bool} :
    (l.map (fun phone =>
        if cond phone then { phone with isPrimary := some false } else phone)).map
      PhoneNumber.id = l.map PhoneNumber.id := by
  refine map_key_of_key_eq ?_
  intro x _
  split <;> rfl

/-- Every operation keeps the phone map well formed: phone ids stay pairwise
distinct and below the phone id counter. -/
theorem applyOp_wf (s : MemStorage) (op : StoreOp) (hWF : PhonesWF s) :
    PhonesWF (applyOp s op) := by
  obtain ⟨hN, hB⟩ := hWF
  cases op with
  | createUser u => exact ⟨hN, hB⟩
  | createCustomer c => exact ⟨hN, hB⟩
  | updateCustomer id u =>
    have h : (applyOp s (.updateCustomer id u)).phoneNumbers = s.phoneNumbers ∧
        (applyOp s (.updateCustomer id u)).phoneNumberCurrentId = s.phoneNumberCurrentId := by
      simp only [applyOp, MemStorage.updateCustomer]
      cases hm : mapGet Customer.id s.customers id <;> simp [hm]
    exact ⟨by unfold PhoneIdsNodup; rw [h.1]; exact hN,
           by unfold PhoneIdsBounded; simp only [h.1, h.2]; exact hB⟩
  | deleteCustomer id =>
    constructor
    · have hsub : List.Sublist ((applyOp s (.deleteCustomer id)).phoneNumbers)
        s.phoneNumbers := List.filter_sublist _
      exact hN.sublist (hsub.map PhoneNumber.id)
    · intro p hp
      exact hB p (List.mem_of_mem_filter hp)
  | createPhoneNumber ins =>
    have hphones : ∃ l0 : List PhoneNumber, l0.map PhoneNumber.id = s.phoneNumbers.map PhoneNumber.id ∧
        (applyOp s (.createPhoneNumber ins)).phoneNumbers = mapSet PhoneNumber.id l0
          ⟨s.phoneNumberCurrentId, ins.customerId, ins.number, ins.isPrimary⟩ := by
      by_cases hprim : (ins.isPrimary == some true) = true
      · refine ⟨s.phoneNumbers.map (fun phone =>
          if phone.customerId == ins.customerId && phone.isPrimary == some true then
            { phone with isPrimary := some false } else phone), demote_ids_eq, ?_⟩
        simp only [applyOp, MemStorage.createPhoneNumber, hprim, if_true]
      · refine ⟨s.phoneNumbers, rfl, ?_⟩
        rw [Bool.not_eq_true] at hprim
        simp only [applyOp, MemStorage.createPhoneNumber, hprim, Bool.false_eq_true, if_false]
    obtain ⟨l0, hl0, hph⟩ := hphones
    have hctr : (applyOp s (.createPhoneNumber ins)).phoneNumberCurrentId =
        s.phoneNumberCurrentId + 1 := rfl
    have hwf := @mapSet_wf l0 s.phoneNumbers
      ⟨s.phoneNumberCurrentId, ins.customerId, ins.number, ins.isPrimary⟩
      (s.phoneNumberCurrentId + 1)
      hN (fun p hp => Nat.lt_succ_of_lt (hB p hp)) hl0 (Nat.lt_succ_self _)
    exact ⟨by unfold PhoneIdsNodup; rw [hph]; exact hwf.1,
           by unfold PhoneIdsBounded; simp only [hph, hctr]; exact hwf.2⟩
  | updatePhoneNumber id u =>
    cases hm : mapGet PhoneNumber.id s.phoneNumbers id with
    | none =>
      have h : applyOp s (.updatePhoneNumber id u) = s := by
        simp only [applyOp, MemStorage.updatePhoneNumber, hm]
      rw [h]
      exact ⟨hN, hB⟩
    | some pn =>
      have hm' : s.phoneNumbers.find? (fun x => PhoneNumber.id x == id) = some pn := hm
      have hpn : pn ∈ s.phoneNumbers := List.mem_of_find?_eq_some hm'
      have hphones : ∃ l0 : List PhoneNumber, l0.map PhoneNumber.id = s.phoneNumbers.map PhoneNumber.id ∧
          (applyOp s (.updatePhoneNumber id u)).phoneNumbers = mapSet PhoneNumber.id l0
            (MemStorage.applyPhoneNumberUpdate pn u) := by
        by_cases hprim : (u.isPrimary == some (some true)) = true
        · refine ⟨s.phoneNumbers.map (fun phone =>
            if phone.customerId == pn.customerId && phone.isPrimary == some true
                && phone.id != id then
              { phone with isPrimary := some false } else phone), demote_ids_eq, ?_⟩
          simp only [applyOp, MemStorage.updatePhoneNumber, hm, hprim, if_true]
        · refine ⟨s.phoneNumbers, rfl, ?_⟩
          rw [Bool.not_eq_true] at hprim
          simp only [applyOp, MemStorage.updatePhoneNumber, hm, hprim,
            Bool.false_eq_true, if_false]
      obtain ⟨l0, hl0, hph⟩ := hphones
      have hctr : (applyOp s (.updatePhoneNumber id u)).phoneNumberCurrentId =
          s.phoneNumberCurrentId := by
        simp only [applyOp, MemStorage.updatePhoneNumber, hm]
      have hv : (MemStorage.applyPhoneNumberUpdate pn u).id < s.phoneNumberCurrentId :=
        hB pn hpn
      have hwf := mapSet_wf hN hB hl0 hv
      exact ⟨by unfold PhoneIdsNodup; rw [hph]; exact hwf.1,
             by unfold PhoneIdsBounded; simp only [hph, hctr]; exact hwf.2⟩
  | deletePhoneNumber id =>
    cases hm : mapGet PhoneNumber.id s.phoneNumbers id with
    | none =>
      have h : applyOp s (.deletePhoneNumber id) = s := by
        simp only [applyOp, MemStorage.deletePhoneNumber, hm]
      rw [h]
      exact ⟨hN, hB⟩
    | some pn =>
      have hphones : ∃ l0 : List PhoneNumber, l0.map PhoneNumber.id = s.phoneNumbers.map PhoneNumber.id ∧
          (applyOp s (.deletePhoneNumber id)).phoneNumbers =
            l0.filter (fun x => PhoneNumber.id x != id) := by
        by_cases hprim : (pn.isPrimary == some true) = true
        · cases hothers : s.phoneNumbers.filter
              (fun phone => phone.customerId == pn.customerId && phone.id != id) with
          | nil =>
            refine ⟨s.phoneNumbers, rfl, ?_⟩
            simp only [applyOp, MemStorage.deletePhoneNumber, hm, hprim, if_true,
              hothers, mapDelete]
          | cons q rest =>
            have hqmem : q ∈ s.phoneNumbers :=
              (List.mem_filter.mp (hothers ▸ List.mem_cons_self q rest)).1
            refine ⟨mapSet PhoneNumber.id s.phoneNumbers { q with isPrimary := some true },
              mapSet_ids_eq ⟨q, hqmem, rfl⟩, ?_⟩
            simp only [applyOp, MemStorage.deletePhoneNumber, hm, hprim, if_true,
              hothers, mapDelete]
        · rw [Bool.not_eq_true] at hprim
          refine ⟨s.phoneNumbers, rfl, ?_⟩
          simp only [applyOp, MemStorage.deletePhoneNumber, hm, hprim,
            Bool.false_eq_true, if_false, mapDelete]
      obtain ⟨l0, hl0, hph⟩ := hphones
      have hctr : (applyOp s (.deletePhoneNumber id)).phoneNumberCurrentId =
          s.phoneNumberCurrentId := by
        simp only [applyOp, MemStorage.deletePhoneNumber, hm]
      constructor
      · unfold PhoneIdsNodup
        rw [hph]
        have hsub : ((l0.filter (fun x => PhoneNumber.id x != id)).map PhoneNumber.id).Sublist
            (l0.map PhoneNumber.id) := (List.filter_sublist _).map _
        exact ((by rw [hl0]; exact hN : (l0.map PhoneNumber.id).Nodup)).sublist hsub
      · unfold PhoneIdsBounded
        simp only [hph, hctr]
        intro p hp
        exact bounded_of_ids_eq hl0 hB p (List.mem_of_mem_filter hp)
  | createService v => exact ⟨hN, hB⟩
  | updateService id u =>
    have h : (applyOp s (.updateService id u)).phoneNumbers = s.phoneNumbers ∧
        (applyOp s (.updateService id u)).phoneNumberCurrentId = s.phoneNumberCurrentId := by
      simp only [applyOp, MemStorage.updateService]
      cases hm : mapGet Service.id s.services id <;> simp [hm]
    exact ⟨by unfold PhoneIdsNodup; rw [h.1]; exact hN,
           by unfold PhoneIdsBounded; simp only [h.1, h.2]; exact hB⟩
  | deleteService id => exact ⟨hN, hB⟩

/-- One operation that does not carry a `customerId` in a phone update maps
every resulting phone either back to a phone of the previous state with the
same id and the same `customerId`, or to a freshly created record whose id is
at least the previous counter. -/
theorem applyOp_trace (s : MemStorage) (op : StoreOp) (hWF : PhonesWF s)
    (hop : opKeepsPhoneCustomerId op = true) :
    ∀ q ∈ (applyOp s op).phoneNumbers,
      (∃ p ∈ s.phoneNumbers, q.id = p.id ∧ q.customerId = p.customerId) ∨
        s.phoneNumberCurrentId ≤ q.id := by
  obtain ⟨hN, hB⟩ := hWF
  cases op with
  | createUser u => exact fun q hq => Or.inl ⟨q, hq, rfl, rfl⟩
  | createCustomer c => exact fun q hq => Or.inl ⟨q, hq, rfl, rfl⟩
  | updateCustomer id u =>
    have h : (applyOp s (.updateCustomer id u)).phoneNumbers = s.phoneNumbers := by
      simp only [applyOp, MemStorage.updateCustomer]
      cases hm : mapGet Customer.id s.customers id <;> simp [hm]
    intro q hq
    rw [h] at hq
    exact Or.inl ⟨q, hq, rfl, rfl⟩
  | deleteCustomer id =>
    intro q hq
    exact Or.inl ⟨q, List.mem_of_mem_filter hq, rfl, rfl⟩
  | createPhoneNumber ins =>
    have hphones : ∃ l0 : List PhoneNumber,
        (∀ y ∈ l0, ∃ x ∈ s.phoneNumbers, y.id = x.id ∧ y.customerId = x.customerId) ∧
        (applyOp s (.createPhoneNumber ins)).phoneNumbers = mapSet PhoneNumber.id l0
          ⟨s.phoneNumberCurrentId, ins.customerId, ins.number, ins.isPrimary⟩ := by
      by_cases hprim : (ins.isPrimary == some true) = true
      · refine ⟨s.phoneNumbers.map (fun phone =>
          if phone.customerId == ins.customerId && phone.isPrimary == some true then
            { phone with isPrimary := some false } else phone), demote_trace, ?_⟩
        simp only [applyOp, MemStorage.createPhoneNumber, hprim, if_true]
      · refine ⟨s.phoneNumbers, fun y hy => ⟨y, hy, rfl, rfl⟩, ?_⟩
        rw [Bool.not_eq_true] at hprim
        simp only [applyOp, MemStorage.createPhoneNumber, hprim, Bool.false_eq_true, if_false]
    obtain ⟨l0, htr, hph⟩ := hphones
    intro q hq
    rw [hph] at hq
    rcases mem_mapSet_cases _ _ _ q hq with h | rfl
    · exact Or.inl (htr q h)
    · exact Or.inr (le_refl _)
  | updatePhoneNumber id u =>
    have hnone : u.customerId = none := Option.isNone_iff_eq_none.mp hop
    cases hm : mapGet PhoneNumber.id s.phoneNumbers id with
    | none =>
      have h : applyOp s (.updatePhoneNumber id u) = s := by
        simp only [applyOp, MemStorage.updatePhoneNumber, hm]
      intro q hq
      rw [h] at hq
      exact Or.inl ⟨q, hq, rfl, rfl⟩
    | some pn =>
      have hm' : s.phoneNumbers.find? (fun x => PhoneNumber.id x == id) = some pn := hm
      have hpn : pn ∈ s.phoneNumbers := List.mem_of_find?_eq_some hm'
      have hphones : ∃ l0 : List PhoneNumber,
          (∀ y ∈ l0, ∃ x ∈ s.phoneNumbers, y.id = x.id ∧ y.customerId = x.customerId) ∧
          (applyOp s (.updatePhoneNumber id u)).phoneNumbers =
            mapSet PhoneNumber.id l0 (MemStorage.applyPhoneNumberUpdate pn u) := by
        by_cases hprim : (u.isPrimary == some (some true)) = true
        · refine ⟨s.phoneNumbers.map (fun phone =>
            if phone.customerId == pn.customerId && phone.isPrimary == some true
                && phone.id != id then
              { phone with isPrimary := some false } else phone), demote_trace, ?_⟩
          simp only [applyOp, MemStorage.updatePhoneNumber, hm, hprim, if_true]
        · refine ⟨s.phoneNumbers, fun y hy => ⟨y, hy, rfl, rfl⟩, ?_⟩
          rw [Bool.not_eq_true] at hprim
          simp only [applyOp, MemStorage.updatePhoneNumber, hm, hprim,
            Bool.false_eq_true, if_false]
      obtain ⟨l0, htr, hph⟩ := hphones
      intro q hq
      rw [hph] at hq
      rcases mem_mapSet_cases _ _ _ q hq with h | rfl
      · exact Or.inl (htr q h)
      · refine Or.inl ⟨pn, hpn, rfl, ?_⟩
        show u.customerId.getD pn.customerId = pn.customerId
        rw [hnone]
        rfl
  | deletePhoneNumber id =>
    cases hm : mapGet PhoneNumber.id s.phoneNumbers id with
    | none =>
      have h : applyOp s (.deletePhoneNumber id) = s := by
        simp only [applyOp, MemStorage.deletePhoneNumber, hm]
      intro q hq
      rw [h] at hq
      exact Or.inl ⟨q, hq, rfl, rfl⟩
    | some pn =>
      have hphones : ∃ l0 : List PhoneNumber,
          (∀ y ∈ l0, ∃ x ∈ s.phoneNumbers, y.id = x.id ∧ y.customerId = x.customerId) ∧
          (applyOp s (.deletePhoneNumber id)).phoneNumbers =
            l0.filter (fun x => PhoneNumber.id x != id) := by
        by_cases hprim : (pn.isPrimary == some true) = true
        · cases hothers : s.phoneNumbers.filter
              (fun phone => phone.customerId == pn.customerId && phone.id != id) with
          | nil =>
            refine ⟨s.phoneNumbers, fun y hy => ⟨y, hy, rfl, rfl⟩, ?_⟩
            simp only [applyOp, MemStorage.deletePhoneNumber, hm, hprim, if_true,
              hothers, mapDelete]
          | cons q rest =>
            have hqmem : q ∈ s.phoneNumbers :=
              (List.mem_filter.mp (hothers ▸ List.mem_cons_self q rest)).1
            refine ⟨mapSet PhoneNumber.id s.phoneNumbers { q with isPrimary := some true },
              ?_, ?_⟩
            · intro y hy
              rcases mem_mapSet_cases _ _ _ y hy with h | rfl
              · exact ⟨y, h, rfl, rfl⟩
              · exact ⟨q, hqmem, rfl, rfl⟩
            · simp only [applyOp, MemStorage.deletePhoneNumber, hm, hprim, if_true,
                hothers, mapDelete]
        · rw [Bool.not_eq_true] at hprim
          refine ⟨s.phoneNumbers, fun y hy => ⟨y, hy, rfl, rfl⟩, ?_⟩
          simp only [applyOp, MemStorage.deletePhoneNumber, hm, hprim,
            Bool.false_eq_true, if_false, mapDelete]
      obtain ⟨l0, htr, hph⟩ := hphones
      intro q hq
      rw [hph] at hq
      exact Or.inl (htr q (List.mem_of_mem_filter hq))
  | createService v => exact fun q hq => Or.inl ⟨q, hq, rfl, rfl⟩
  | updateService id u =>
    have h : (applyOp s (.updateService id u)).phoneNumbers = s.phoneNumbers := by
      simp only [applyOp, MemStorage.updateService]
      cases hm : mapGet Service.id s.services id <;> simp [hm]
    intro q hq
    rw [h] at hq
    exact Or.inl ⟨q, hq, rfl, rfl⟩
  | deleteService id => exact fun q hq => Or.inl ⟨q, hq, rfl, rfl⟩

/-- Along a run of operations none of which carries a `customerId` in a phone
update, every resulting phone traces back to an initial phone with the same
id and `customerId`, unless it was created during the run. -/
theorem applyOps_trace (ops : List StoreOp) :
    ∀ s : MemStorage, PhonesWF s →
      (∀ op ∈ ops, opKeepsPhoneCustomerId op = true) →
      ∀ q ∈ (applyOps s ops).phoneNumbers,
        (∃ p ∈ s.phoneNumbers, q.id = p.id ∧ q.customerId = p.customerId) ∨
          s.phoneNumberCurrentId ≤ q.id := by
  induction ops with
  | nil => exact fun s _ _ q hq => Or.inl ⟨q, hq, rfl, rfl⟩
  | cons op ops ih =>
    intro s hWF hgood q hq
    have hop := hgood op (List.mem_cons_self _ _)
    have hWF' := applyOp_wf s op hWF
    have hq' : q ∈ (applyOps (applyOp s op) ops).phoneNumbers := hq
    rcases ih (applyOp s op) hWF' (fun o ho => hgood o (List.mem_cons_of_mem _ ho)) q hq' with
      ⟨r, hr, hqr1, hqr2⟩ | hge
    · rcases applyOp_trace s op hWF hop r hr with ⟨p, hp, h1, h2⟩ | hge'
      · exact Or.inl ⟨p, hp, hqr1.trans h1, hqr2.trans h2⟩
      · right
        omega
    · right
      have hmono := (applyOp_counters_mono s op).2.1
      omega

/-- C5 (amended): across any sequence of store operations in which no
`updatePhoneNumber` call carries a `customerId` field, the `customerId` of
every surviving phone record is unchanged. -/
theorem customerId_immutable_without_field (s : MemStorage) (ops : List StoreOp)
    (hWF : PhonesWF s)
    (hgood : ∀ op ∈ ops, opKeepsPhoneCustomerId op = true) :
    ∀ p ∈ s.phoneNumbers, ∀ q ∈ (applyOps s ops).phoneNumbers,
      q.id = p.id → q.customerId = p.customerId := by
  intro p hp q hq hid
  rcases applyOps_trace ops s hWF hgood q hq with ⟨r, hr, h1, h2⟩ | hge
  · have hrp : r = p := List.inj_on_of_nodup_map hWF.1 hr hp (by rw [← h1, hid])
    rw [h2, hrp]
  · have h3 := hWF.2 p hp
    exact absurd hge (by omega)

/-- Witness for `customerId_immutable_without_field`: a number-only update of
phone 1 keeps its `customerId`. -/
theorem customerId_immutable_without_field_witness :
    (⟨1, 1, "000", some true⟩ : PhoneNumber).customerId =
      (⟨1, 1, "+966 54 123 4567", some true⟩ : PhoneNumber).customerId :=
  customerId_immutable_without_field MemStorage.init
    [.updatePhoneNumber 1 { number := some "000" }] (by decide) (by decide)
    ⟨1, 1, "+966 54 123 4567", some true⟩ (by decide)
    ⟨1, 1, "000", some true⟩ (by decide) rfl

end InvoiceSync
